import Mathlib

/-!
Shallow embedding of the dnsproxy repository (github.com/ARwMq9b6/dnsproxy):
split-horizon DNS resolver and proxy dispatcher.  Go functions become Lean
functions; the process-wide mutable globals become an explicit state record;
goroutine races are modelled by quantifying over the arrival order of the
concurrent results.  Machine integers of the source (uint8/uint16/int32) stay
Nat/Int here; none of the verified claims exercises overflow.
-/

set_option maxRecDepth 4000

/-! ## Model of Go `net.IP`

A Go `net.IP` is a byte slice that may be nil.  `GoIP.nilIP` models the nil
slice (`var ip net.IP`), `GoIP.bytes bs` a non-nil slice with bytes `bs`.
-/

inductive GoIP : Type where
  | nilIP : GoIP
  | bytes : List Nat → GoIP
deriving DecidableEq, Repr

namespace GoIP

/-- Length of the byte slice; the nil slice has length 0 (Go `len(ip)`). -/
def len : GoIP → Nat
  | .nilIP => 0
  | .bytes bs => bs.length

/-- Go `ip.To4()`: a 4-byte slice is returned as is; a 16-byte slice with the
IPv4-in-IPv6 prefix (10 zero bytes then 0xff 0xff) yields its last 4 bytes;
anything else yields nil.  We return the 4 bytes on success. -/
def to4 : GoIP → Option (List Nat)
  | .nilIP => none
  | .bytes bs =>
    if bs.length = 4 then some bs
    else if bs.length = 16 ∧ bs.take 12 = [0, 0, 0, 0, 0, 0, 0, 0, 0, 0, 255, 255] then
      some (bs.drop 12)
    else none

end GoIP

/-- Lowercase hexadecimal digits of a group, no leading zeros (Go
`appendHex`); `Nat.toDigits 16` produces exactly this form. -/
def hexGroup (n : Nat) : String :=
  String.mk (Nat.toDigits 16 n)

/-- Dotted-decimal form of four bytes (Go `net.IP.String` IPv4 case). -/
def dottedQuad (a b c d : Nat) : String :=
  Nat.repr a ++ "." ++ Nat.repr b ++ "." ++ Nat.repr c ++ "." ++ Nat.repr d

/-- The eight 16-bit groups of a 16-byte IPv6 address. -/
def ipv6Groups : List Nat → List Nat
  | b0 :: b1 :: rest => (b0 * 256 + b1) :: ipv6Groups rest
  | _ => []

/-- Length of the leading run of zeros of a group list. -/
def zeroRunFrom : List Nat → Nat
  | [] => 0
  | g :: gs => if g = 0 then zeroRunFrom gs + 1 else 0

/-- Length of the run of zero groups starting at index `i`. -/
def zeroRunLen (gs : List Nat) (i : Nat) : Nat :=
  zeroRunFrom (gs.drop i)

/-- Leftmost strictly-longest run of zero groups, as (start, end); runs of a
single group are not compressed (Go `net.IP.String`, the e0/e1 scan).  The
sentinel (9, 9) means no run — indices never reach 9 in an 8-group address. -/
def bestZeroRun (gs : List Nat) : Nat × Nat :=
  let best := (List.range gs.length).foldl
    (fun acc i =>
      let l := zeroRunLen gs i
      if l > acc.2 then (i, l) else acc)
    (9, 0)
  if best.2 ≥ 2 then (best.1, best.1 + best.2) else (9, 9)

/-- Prints the groups of an IPv6 address with the run [e0, e1) compressed to
a double colon (the printing loop of Go `net.IP.String`). -/
def ipv6Fmt (gs : List Nat) (e0 e1 : Nat) : Nat → Nat → String
  | 0, _ => ""
  | fuel + 1, i =>
    if i < gs.length then
      if i = e0 then
        "::" ++
          (if e1 < gs.length then
            hexGroup (gs.getD e1 0) ++ ipv6Fmt gs e0 e1 fuel (e1 + 1)
          else "")
      else
        (if i > 0 then ":" else "") ++ hexGroup (gs.getD i 0) ++
          ipv6Fmt gs e0 e1 fuel (i + 1)
    else ""

namespace GoIP

/-- Go `net.IP.String()`: nil or empty prints as the literal nil marker,
4-byte (or IPv4-in-IPv6) as dotted decimal, 16-byte as RFC 5952 IPv6 with
double-colon compression, and invalid lengths as a question mark. -/
def string (ip : GoIP) : String :=
  match ip with
  | .nilIP => "<nil>"
  | .bytes bs =>
    if bs.length = 0 then "<nil>"
    else
      match ip.to4 with
      | some [a, b, c, d] => dottedQuad a b c d
      | _ =>
        if bs.length = 16 then
          let gs := ipv6Groups bs
          let e := bestZeroRun gs
          ipv6Fmt gs e.1 e.2 9 0
        else "?"

end GoIP

/-- Go `strconv`-style decimal scan used by `net.parseIPv4` (`dtoi`): reads
digits from the front, stops at the first non-digit; fails on no digits.
Returns (value, rest). -/
def dtoi : List Char → Option (Nat × List Char)
  | cs =>
    let digits := cs.takeWhile (fun c => '0' ≤ c ∧ c ≤ '9')
    if digits.isEmpty then none
    else some (digits.foldl (fun n c => n * 10 + (c.toNat - 48)) 0, cs.dropWhile (fun c => '0' ≤ c ∧ c ≤ '9'))

/-- Hex scan used by `net.parseIPv6` (`xtoi`): like `dtoi` in base 16. -/
def hexVal (c : Char) : Option Nat :=
  if '0' ≤ c ∧ c ≤ '9' then some (c.toNat - 48)
  else if 'a' ≤ c ∧ c ≤ 'f' then some (c.toNat - 87)
  else if 'A' ≤ c ∧ c ≤ 'F' then some (c.toNat - 55)
  else none

def xtoi : List Char → Option (Nat × List Char)
  | cs =>
    let digits := cs.takeWhile (fun c => (hexVal c).isSome)
    if digits.isEmpty then none
    else some (digits.foldl (fun n c => n * 16 + (hexVal c).getD 0) 0,
               cs.dropWhile (fun c => (hexVal c).isSome))

/-- Go `net.parseIPv4`: four dot-separated decimal bytes; the result is the
16-byte IPv4-in-IPv6 representation, as in the Go standard library. -/
def parseIPv4 (cs : List Char) : GoIP :=
  let rec fields : Nat → List Char → Option (List Nat)
    | 0, _ => none
    | k + 1, cs =>
      match dtoi cs with
      | none => none
      | some (n, rest) =>
        if n > 255 then none
        else
          match rest with
          | [] => some [n]
          | '.' :: rest' =>
            match fields k rest' with
            | some ns => some (n :: ns)
            | none => none
          | _ => none
  match fields 4 cs with
  | some [a, b, c, d] => GoIP.bytes ([0, 0, 0, 0, 0, 0, 0, 0, 0, 0, 255, 255] ++ [a, b, c, d])
  | _ => GoIP.nilIP

/-- One step of Go `net.parseIPv6`: parse up to `fuel` 16-bit hex groups from
`cs`, recording an ellipsis position.  Returns (groups-before-ellipsis,
groups-after-ellipsis, sawEllipsis) or none on a syntax error.  An embedded
trailing IPv4 contributes its two groups. -/
def parseIPv6Groups : Nat → List Char → Option (List Nat × List Nat × Bool)
  | 0, _ => none
  | _, [] => some ([], [], false)
  | fuel + 1, cs =>
    match cs with
    | ':' :: ':' :: rest =>
      match parseIPv6Groups fuel rest with
      | some (pre, post, false) => some ([], pre ++ post, true)
      | _ => none
    | _ =>
      match xtoi cs with
      | none => none
      | some (n, rest) =>
        if n > 0xFFFF then none
        else
          match rest with
          | [] => some ([n], [], false)
          | ':' :: ':' :: rest' =>
            match parseIPv6Groups fuel rest' with
            | some (pre, post, false) => some ([n], pre ++ post, true)
            | _ => none
          | ':' :: rest' =>
            match parseIPv6Groups fuel rest' with
            | some (pre, post, e) => some (n :: pre, post, e)
            | none => none
          | '.' :: _ =>
            -- trailing embedded IPv4 (e.g. ::ffff:1.2.3.4)
            match parseIPv4 cs with
            | GoIP.bytes bs => some (ipv6Groups (bs.drop 12), [], false)
            | GoIP.nilIP => none
          | _ => none

/-- Go `net.parseIPv6`: the groups before and after a single optional
ellipsis, zero-padded in the middle to eight groups. -/
def parseIPv6 (cs : List Char) : GoIP :=
  match parseIPv6Groups 20 cs with
  | none => GoIP.nilIP
  | some (pre, post, ell) =>
    let total := pre.length + post.length
    if ell then
      if total < 8 then
        GoIP.bytes (groupBytes (pre ++ List.replicate (8 - total) 0 ++ post))
      else GoIP.nilIP
    else
      if total = 8 then GoIP.bytes (groupBytes (pre ++ post)) else GoIP.nilIP
where
  groupBytes : List Nat → List Nat
    | [] => []
    | g :: gs => (g / 256) :: (g % 256) :: groupBytes gs

/-- Go `net.ParseIP`: dispatch to the IPv4 or IPv6 parser on the first dot or
colon encountered. -/
def goParseIP (s : String) : GoIP :=
  let rec dispatch : List Char → GoIP
    | [] => GoIP.nilIP
    | '.' :: _ => parseIPv4 s.data
    | ':' :: _ => parseIPv6 s.data
    | _ :: cs => dispatch cs
  dispatch s.data


/-! ## Transport tags and the caches' cell type (domain_matcher.go / cache file) -/

/-- Go `type transport int8` with `_TRANS_DIRECT = iota; _TRANS_PROXY`. -/
inductive transport : Type where
  | direct : transport
  | proxy : transport
deriving DecidableEq, Repr

/-- Go `dns.Fqdn`: append a trailing dot unless one is already present. -/
def dnsFqdn (s : String) : String :=
  if s.endsWith "." then s else s ++ "."

/-! ## Model of `dns.Msg` (miekg/dns), restricted to the fields the
repository reads or writes. -/

/-- One EDNS(0) option of an OPT record: either an `EDNS0_SUBNET` (with the
fields `MsgSetECSWithAddr` touches) or some other option, kept opaque. -/
inductive EDNS0Option : Type where
  | subnet (code family sourceNetmask sourceScope : Nat) (address : GoIP)
  | other (code : Nat)
deriving DecidableEq, Repr

def EDNS0Option.isSubnet : EDNS0Option → Bool
  | .subnet _ _ _ _ _ => true
  | .other _ => false

/-- Go `dns.RR_Header`. -/
structure RRHeader : Type where
  name : String
  rrtype : Nat
  class_ : Nat
  ttl : Nat
  rdlength : Nat
deriving DecidableEq, Repr

def dnsTypeA : Nat := 1
def dnsTypeAAAA : Nat := 28
def dnsTypeOPT : Nat := 41
def dnsClassINET : Nat := 1
def dnsEDNS0SUBNET : Nat := 8
def dnsRcodeSuccess : Int := 0

/-- A resource record, as the repository distinguishes them: `A` and `AAAA`
carry an address, `OPT` carries EDNS(0) options, `RFC3597` carries opaque
text data, and every other registered type is kept as its header only (the
repository never reads their bodies). -/
inductive RR : Type where
  | a (hdr : RRHeader) (addr : GoIP)
  | aaaa (hdr : RRHeader) (addr : GoIP)
  | opt (hdr : RRHeader) (options : List EDNS0Option)
  | rfc3597 (hdr : RRHeader) (rdata : String)
  | generic (hdr : RRHeader)
deriving DecidableEq, Repr

/-- Go `rr.Header()`. -/
def RR.header : RR → RRHeader
  | .a h _ => h
  | .aaaa h _ => h
  | .opt h _ => h
  | .rfc3597 h _ => h
  | .generic h => h

/-- Assignment `rr.Header().Name = n` through the returned header pointer. -/
def RR.withHeaderName (n : String) : RR → RR
  | .a h x => .a { h with name := n } x
  | .aaaa h x => .aaaa { h with name := n } x
  | .opt h x => .opt { h with name := n } x
  | .rfc3597 h x => .rfc3597 { h with name := n } x
  | .generic h => .generic { h with name := n }

/-- The check `r.Header().Rrtype == dns.TypeOPT` performed by `IsEdns0`; the
subsequent Go type assertion to `*dns.OPT` only ever sees `opt` values here. -/
def RR.isOPT : RR → Bool
  | .opt h _ => h.rrtype == dnsTypeOPT
  | _ => false

/-- Go `dns.Question`. -/
structure Question : Type where
  name : String
  qtype : Nat
  qclass : Nat
deriving DecidableEq, Repr

/-- Go `dns.Msg`: header fields flattened in, plus the four sections.  `rcode`
is `Int` because the DoH translation writes `int(dohresp.Status)` of an
`int32` into it. -/
structure Msg : Type where
  id : Nat := 0
  response : Bool := false
  opcode : Nat := 0
  authoritative : Bool := false
  truncated : Bool := false
  recursionDesired : Bool := false
  recursionAvailable : Bool := false
  authenticatedData : Bool := false
  checkingDisabled : Bool := false
  rcode : Int := 0
  compress : Bool := false
  question : List Question := []
  answer : List RR := []
  ns : List RR := []
  extra : List RR := []
deriving DecidableEq, Repr

/-- Go `(*dns.Msg).IsEdns0()`: the first OPT record of the Additional
section, or none. -/
def Msg.isEdns0 (m : Msg) : Option RR :=
  m.extra.find? RR.isOPT

/-! ## Message utilities (libdns_utils.go) -/

/-- libdns_utils.go `MsgNewReplyFromReq`: a fresh response message copying
id, opcode and the first question, with `RCODE=NOERROR`, `RA=true` and the
given answers; every other field keeps the zero value of `new(dns.Msg)`. -/
def MsgNewReplyFromReq (req : Msg) (answer : List RR := []) : Msg :=
  { id := req.id
    response := true
    opcode := req.opcode
    rcode := dnsRcodeSuccess
    question := match req.question with
      | [] => []
      | q :: _ => [q]
    recursionAvailable := true
    answer := answer }

/-- Replace the first element satisfying `p`, leaving the rest unchanged. -/
def updateFirstWhere (p : α → Bool) (f : α → α) : List α → List α
  | [] => []
  | x :: xs => if p x then f x :: xs else x :: updateFirstWhere p f xs

/-- The `EDNS0_SUBNET` option as lines 132–141 of libdns_utils.go leave it:
`Code=EDNS0SUBNET`, `Address=addr`, family 1 and netmask 32 when
`addr.To4() != nil`, else family 2 and netmask 128, and `SourceScope=0`. -/
def newECSOption (addr : GoIP) : EDNS0Option :=
  if (addr.to4).isSome then
    .subnet dnsEDNS0SUBNET 1 32 0 addr
  else
    .subnet dnsEDNS0SUBNET 2 128 0 addr

/-- Inside the OPT record found (or created) by `MsgSetECSWithAddr`: the
first `EDNS0_SUBNET` option is overwritten with the new fields; if none
exists, a fresh one is appended. -/
def setECSInOptions (addr : GoIP) (opts : List EDNS0Option) : List EDNS0Option :=
  if opts.any EDNS0Option.isSubnet then
    updateFirstWhere EDNS0Option.isSubnet (fun _ => newECSOption addr) opts
  else
    opts ++ [newECSOption addr]

/-- Apply `setECSInOptions` to an OPT record (the in-place mutation through
the pointer returned by `IsEdns0`). -/
def setECSInRR (addr : GoIP) : RR → RR
  | .opt h opts => .opt h (setECSInOptions addr opts)
  | r => r

/-- libdns_utils.go `MsgSetECSWithAddr`: no-op on a nil address; otherwise
ensure an OPT record exists in Additional (appending a fresh one with name
"." and rrtype OPT if absent) and overwrite / append the `EDNS0_SUBNET`
option inside the first OPT record. -/
def MsgSetECSWithAddr (m : Msg) (addr : GoIP) : Msg :=
  match addr with
  | .nilIP => m
  | _ =>
    let extra₀ := if m.extra.any RR.isOPT then m.extra
      else m.extra ++ [RR.opt ⟨".", dnsTypeOPT, 0, 0, 0⟩ []]
    { m with extra := updateFirstWhere RR.isOPT (setECSInRR addr) extra₀ }

/-- libdns_utils.go `MsgExtractAnswer`: first `A` or `AAAA` answer with a
non-empty address, together with its address; none when the message is nil
(the `Option Msg` argument) or no such record exists. -/
def MsgExtractAnswer : Option Msg → Option (RR × GoIP)
  | none => none
  | some msg =>
    let rec scan : List RR → Option (RR × GoIP)
      | [] => none
      | r :: rest =>
        match r with
        | .a h ip => if ip.len ≠ 0 then some (.a h ip, ip) else scan rest
        | .aaaa h ip => if ip.len ≠ 0 then some (.aaaa h ip, ip) else scan rest
        | _ => scan rest
    scan msg.answer

/-! ## Google-JSON DoH (dns_over_https/google/lib.go and the translation in
libdns_utils.go) -/

/-- google/lib.go `DNSQuestion`. -/
structure GoogleDNSQuestion : Type where
  name : String
  type_ : Int
deriving DecidableEq, Repr

/-- google/lib.go `DNSRR`. -/
structure GoogleDNSRR : Type where
  name : String
  type_ : Int
  ttl : Int
  data : String
deriving DecidableEq, Repr

/-- google/lib.go `RespRepr`: the decoded Google-JSON DoH response body. -/
structure GoogleRespRepr : Type where
  status : Int
  tc : Bool
  rd : Bool
  ra : Bool
  ad : Bool
  cd : Bool
  question : List GoogleDNSQuestion
  answer : List GoogleDNSRR
  authority : List GoogleDNSRR
  additional : List GoogleDNSRR
deriving DecidableEq, Repr

/-- The query parameters of the DoH GET that google/lib.go `Query` builds:
always `name` and `type`; `edns_client_subnet` only when the variadic `ecs`
argument was passed, with the empty string replaced by the 0.0.0.0/0
default. -/
structure GoogleQueryParams : Type where
  name : String
  qtype : Nat
  ednsClientSubnet : Option String
deriving DecidableEq, Repr

/-- google/lib.go `Query`, restricted to the GET parameters it sends (the
network round trip and JSON decoding are the oracle's side). -/
def googleQueryParams (qtype : Nat) (name : String) (ecs : Option String) : GoogleQueryParams :=
  { name := name
    qtype := qtype
    ednsClientSubnet :=
      match ecs with
      | none => none
      | some s => some (if s = "" then "0.0.0.0/0" else s) }

/-- The ECS address libdns_utils.go lines 39–47 extract from a request: the
address of the LAST `EDNS0_SUBNET` option of the first OPT record (the loop
does not break), or the nil IP when there is no OPT or no subnet option. -/
def msgDohECSAddr (req : Msg) : GoIP :=
  match req.isEdns0 with
  | none => GoIP.nilIP
  | some r =>
    match r with
    | .opt _ opts =>
      opts.foldl (fun acc o =>
        match o with
        | .subnet _ _ _ _ addr => addr
        | .other _ => acc) GoIP.nilIP
    | _ => GoIP.nilIP

/-- The DoH GET parameters `MsgExchangeOverGoogleDOH` produces for a request:
question name, question type, and — always — `ecs.String()` of the extracted
address, which is the literal nil marker string when the request carries no
`EDNS0_SUBNET` option. -/
def msgExchangeDohParams (req : Msg) : GoogleQueryParams :=
  let qtype := (req.question.headD ⟨"", 0, 0⟩).qtype
  let name := (req.question.headD ⟨"", 0, 0⟩).name
  googleQueryParams qtype name (some (msgDohECSAddr req).string)

/-- The Go `dns.TypeToRR` registry: whether a numeric type has a registered
constructor.  The registry covers all standard types; the repository only
distinguishes A, AAAA and everything-else, so the common standard types are
listed and exotic numbers fall back to `RFC3597`, exactly as in miekg/dns
for unregistered types. -/
def dnsTypeHasConstructor (t : Nat) : Bool :=
  t ∈ [1, 2, 5, 6, 12, 15, 16, 28, 33, 35, 39, 41, 43, 46, 47, 48, 250, 251, 252, 255, 257]

/-- libdns_utils.go `RRNewFromGoogleDohRR`: build an RR from a Google-JSON
RR; for a registered type the constructor is used and the header fields set
(class INET, rdlength the byte length of the textual data); `A`/`AAAA`
additionally parse the data as an IP; unregistered types fall back to an
`RFC3597` with the textual data. -/
def RRNewFromGoogleDohRR (grr : GoogleDNSRR) : RR :=
  let hdr : RRHeader :=
    { name := grr.name
      rrtype := grr.type_.toNat
      class_ := dnsClassINET
      ttl := grr.ttl.toNat
      rdlength := grr.data.length }
  if dnsTypeHasConstructor grr.type_.toNat then
    if grr.type_.toNat = dnsTypeA then .a hdr (goParseIP grr.data)
    else if grr.type_.toNat = dnsTypeAAAA then .aaaa hdr (goParseIP grr.data)
    else .generic hdr
  else
    .rfc3597 hdr grr.data

/-- libdns_utils.go `MsgExchangeOverGoogleDOH`, with the network exchange
factored out: given the request and the decoded Google-JSON response, the
wire-format message returned to the caller.  Note `Response` is the test
`Status == 0` while `Rcode` is `Status` itself; questions copy the request's
class positionally (class 0 stands for the out-of-range index on which Go
would panic); the extracted ECS address, when non-nil, is set on the reply. -/
def MsgExchangeOverGoogleDOH (req : Msg) (dohresp : GoogleRespRepr) : Msg :=
  let ecs := msgDohECSAddr req
  let questions := (List.range dohresp.question.length).map (fun i =>
    let c := dohresp.question.getD i ⟨"", 0⟩
    Question.mk c.name c.type_.toNat (((req.question.get? i).map Question.qclass).getD 0))
  let resp : Msg :=
    { id := req.id
      response := dohresp.status = 0
      opcode := 0
      authoritative := false
      truncated := dohresp.tc
      recursionDesired := dohresp.rd
      recursionAvailable := dohresp.ra
      authenticatedData := dohresp.ad
      checkingDisabled := dohresp.cd
      rcode := dohresp.status
      compress := req.compress
      question := questions
      answer := dohresp.answer.map RRNewFromGoogleDohRR
      ns := dohresp.authority.map RRNewFromGoogleDohRR
      extra := dohresp.additional.map RRNewFromGoogleDohRR }
  match ecs with
  | .nilIP => resp
  | _ => MsgSetECSWithAddr resp ecs

/-! ## The go-cache based caches (patrickmn/go-cache `Add`/`Get` plus the
repository's wrappers).  Time is an explicit `now : Nat`; an expiration of 0
means no expiry, and an entry is live while `now ≤ exp` (go-cache expires
strictly after the deadline: `time.Now().UnixNano() > item.Expiration`). -/

/-- One stored cache item: value and absolute expiration instant. -/
structure CacheItem (α : Type) : Type where
  object : α
  expiration : Nat
deriving DecidableEq, Repr

/-- The synchronized map inside `cache.Cache`. -/
abbrev GoCacheItems (α : Type) : Type := List (String × CacheItem α)

/-- go-cache `c.get`: present and not expired. -/
def goCacheGet (items : GoCacheItems α) (now : Nat) (k : String) : Option α :=
  match items.lookup k with
  | none => none
  | some item =>
    if item.expiration > 0 ∧ now > item.expiration then none
    else some item.object

/-- go-cache `c.set` with the default expiration: replace or insert, with a
fresh deadline `now + ttl`. -/
def goCacheSet (items : GoCacheItems α) (now ttl : Nat) (k : String) (v : α) : GoCacheItems α :=
  match items with
  | [] => [(k, ⟨v, now + ttl⟩)]
  | (k', it) :: rest =>
    if k' = k then (k, ⟨v, now + ttl⟩) :: rest
    else (k', it) :: goCacheSet rest now ttl k v

/-- go-cache `Add`: refuse (returning an error, which every caller in this
repository discards) when the key already holds an unexpired item; otherwise
store with a fresh TTL. -/
def goCacheAdd (items : GoCacheItems α) (now ttl : Nat) (k : String) (v : α) :
    GoCacheItems α × Bool :=
  match goCacheGet items now k with
  | some _ => (items, false)
  | none => (goCacheSet items now ttl k v, true)

/-- The repository's `ipcache`: key is the textual IP, value a transport. -/
structure ipcache : Type where
  inner : GoCacheItems transport
  defaultTTL : Nat
deriving DecidableEq, Repr

/-- cache file `ipcache.Add`: empty keys are silently ignored; otherwise
go-cache `Add` with the default expiration (its error is discarded). -/
def ipcache.add (c : ipcache) (now : Nat) (ip : String) (t : transport) : ipcache :=
  if ip = "" then c
  else { c with inner := (goCacheAdd c.inner now c.defaultTTL ip t).1 }

/-- cache file `ipcache.Get`. -/
def ipcache.get (c : ipcache) (now : Nat) (ip : String) : Option transport :=
  goCacheGet c.inner now ip

/-- cache file `domaincacheCell`. -/
structure domaincacheCell : Type where
  ans : RR
  trans : transport
deriving DecidableEq, Repr

/-- The repository's `domaincache`. -/
structure domaincache : Type where
  inner : GoCacheItems domaincacheCell
  defaultTTL : Nat
deriving DecidableEq, Repr

/-- cache file `domaincache.Add`: empty keys ignored; the answer's owner
name is normalized to the fully-qualified key (note: this mutation happens
even when the subsequent go-cache `Add` refuses); then go-cache `Add`. -/
def domaincache.add (c : domaincache) (now : Nat) (domain : String) (answer : RR)
    (t : transport) : domaincache × RR :=
  if domain = "" then (c, answer)
  else
    let answer := if dnsFqdn domain ≠ answer.header.name
      then answer.withHeaderName (dnsFqdn domain) else answer
    ({ c with inner := (goCacheAdd c.inner now c.defaultTTL domain ⟨answer, t⟩).1 }, answer)

/-- cache file `domaincache.Get`. -/
def domaincache.get (c : domaincache) (now : Nat) (domain : String) : Option domaincacheCell :=
  goCacheGet c.inner now domain

/-! ## The 3-way race (libdns_utils.go `legallySpawnExchange`)

Three goroutines call `dt.Exchange(req)`.  A success sends its response
straight into the `resp` channel (capacity 3, so the send never blocks).  A
failing goroutine executes TWO separate shared-memory operations with no
mutual exclusion between them: first `atomic.LoadInt32(&failedTimes)`, and
then — depending on the value it read — either the pair of sends
`resp <- nil; lastErr <- err` (when it read `spawnNum - 1 = 2`) or
`atomic.AddInt32(&failedTimes, 1)`.  The main goroutine takes the first
`resp` item and, when that is nil, reads `lastErr`.

We model a run at exactly this granularity: a goroutine's load and its
subsequent send-or-increment are two distinct atomic events, and other
goroutines' events may fall between them.  A schedule is the global order of
these events, written as a list of goroutine indices; index `i`'s first
occurrence runs goroutine `i`'s first event, its second occurrence the
second event (succeeding goroutines have a single event; further
occurrences are no-ops).  The branch a failing goroutine takes is fixed by
the counter value its load read, as in the source. -/

deriving instance DecidableEq for Except

/-- Outcome of one `Exchange` call: a response or an error. -/
inductive ExchOutcome : Type where
  | ok (m : Msg)
  | fail (e : String)
deriving DecidableEq, Repr

/-- Shared and per-goroutine state of one race execution: the atomic
`failedTimes` counter, each goroutine's program counter and the value its
`atomic.LoadInt32` read, the FIFO contents of the `resp` channel, and the
value sent on `lastErr`. -/
structure RaceWorld : Type where
  failedTimes : Nat
  pcs : List Nat
  loads : List (Option Nat)
  respChan : List (Option Msg)
  lastErr : Option String
deriving DecidableEq, Repr

/-- All three goroutines at their first event, counter zero, channels empty. -/
def raceInit : RaceWorld :=
  { failedTimes := 0, pcs := [0, 0, 0], loads := [none, none, none],
    respChan := [], lastErr := none }

/-- Execute goroutine `i`'s next atomic event (libdns_utils.go lines
231–242): a succeeding goroutine's only event is `resp <- r`; a failing
goroutine's first event is `atomic.LoadInt32(&failedTimes)`, and its second
event branches on the value that load read — `resp <- nil; lastErr <- err`
if it saw `spawnNum - 1 = 2`, else `atomic.AddInt32(&failedTimes, 1)`.
A finished goroutine has no further events. -/
def raceStep (outcomes : List ExchOutcome) (w : RaceWorld) (i : Nat) : RaceWorld :=
  match outcomes.getD i (ExchOutcome.fail "") with
  | .ok m =>
    if w.pcs.getD i 0 = 0 then
      { w with pcs := w.pcs.set i 1, respChan := w.respChan ++ [some m] }
    else w
  | .fail e =>
    match w.pcs.getD i 0 with
    | 0 => { w with pcs := w.pcs.set i 1, loads := w.loads.set i (some w.failedTimes) }
    | 1 =>
      if (w.loads.getD i none).getD 0 = 2 then
        { w with pcs := w.pcs.set i 2, respChan := w.respChan ++ [none],
                 lastErr := some e }
      else
        { w with pcs := w.pcs.set i 2, failedTimes := w.failedTimes + 1 }
    | _ => w

/-- Replay a whole schedule from the initial state. -/
def raceRun (outcomes : List ExchOutcome) (schedule : List Nat) : RaceWorld :=
  schedule.foldl (raceStep outcomes) raceInit

/-- The main goroutine of `legallySpawnExchange` (lines 245–249): the first
`resp` item decides — a response returns with a nil error, a nil makes it
read `lastErr`; `none` models blocking forever on an empty `resp` channel. -/
def raceResult (w : RaceWorld) : Option (Except String Msg) :=
  match w.respChan.head? with
  | some (some r) => some (Except.ok r)
  | some none => w.lastErr.map Except.error
  | none => none

/-- libdns_utils.go `legallySpawnExchange` as a function of the three
`Exchange` outcomes and the schedule of the goroutines' atomic events. -/
def legallySpawnExchange (outcomes : List ExchOutcome) (schedule : List Nat) :
    Option (Except String Msg) :=
  raceResult (raceRun outcomes schedule)

/-! ## The globals validator (domain_matcher.go, second part of the file)

The process-wide globals, reduced to what `validate` inspects: whether each
is nil.  The two ECS sentinels are kept as `GoIP` (nil = the nil slice); the
other six dependencies only matter through their nil-ness. -/

structure GlobalsState : Type where
  ipcacheInner : Option Unit
  domaincacheInner : Option Unit
  domainMatcher : Option Unit
  ipMatchChineseMainland : Option Unit
  dnsSubnetLocalIP : GoIP
  dnsSubnetProxyIP : GoIP
  dnsTransportObedient : Option Unit
  dnsTransportAbroad : Option Unit
deriving DecidableEq, Repr

/-- domain_matcher.go `(*globalsValidator).validate`, the condition of lines
47–54.  The duplicated `_DNS_SUBNET_LOCAL_IP != nil` conjunct mirrors the
source exactly: `_DNS_SUBNET_PROXY_IP` is never checked. -/
def globalsValidate (g : GlobalsState) : Bool :=
  g.ipcacheInner.isSome &&
  g.domaincacheInner.isSome &&
  g.domainMatcher.isSome &&
  g.ipMatchChineseMainland.isSome &&
  !(g.dnsSubnetLocalIP == GoIP.nilIP) &&
  !(g.dnsSubnetLocalIP == GoIP.nilIP) &&
  g.dnsTransportObedient.isSome &&
  g.dnsTransportAbroad.isSome

/-- dnsserve.go `ServeDNS`: true iff the gate lets the server start (the
call proceeds to `serveDNS` rather than returning the uninitialized-globals
error). -/
def serveDNSStarts (g : GlobalsState) : Bool := globalsValidate g

/-- The proxy front's `ServeProxy`: the same gate. -/
def serveProxyStarts (g : GlobalsState) : Bool := globalsValidate g

/-! ## The SOCKS5 request (proxy front) -/

def AddrIPv4 : Nat := 1
def AddrDomain : Nat := 3
def AddrIPv6 : Nat := 4

/-- gosocks5 request address: type tag, host and port. -/
structure Socks5Addr : Type where
  type_ : Nat
  host : String
  port : Nat
deriving DecidableEq, Repr

/-- The repository's `socks5Request`, reduced to the request address (the
connection and chosen proxy server stay outside the pure model). -/
structure socks5Request : Type where
  addr : Socks5Addr
deriving DecidableEq, Repr

/-- proxy front `(*socks5Request).setRedirect`: the address type is set to
`AddrIPv4` in BOTH branches of the `ip.To4()` test — faithfully reproducing
the source, whose else-branch also assigns `AddrIPv4` — and the host becomes
the textual form of the IP. -/
def socks5Request.setRedirect (r : socks5Request) (ip : GoIP) : socks5Request :=
  let addrType := if (ip.to4).isSome then AddrIPv4 else AddrIPv4
  { r with addr := { r.addr with type_ := addrType, host := ip.string } }

/-! ## The DNS front's per-query handler (dnsserve.go `handleDnsRequest`)

The handler reads process-wide state (caches, matchers, sentinels) and calls
the two upstream transports' `legallySpawnExchange`; we model these as
oracles and record, besides the reply, every observable effect: which
requests were raced on which upstream, whether `MatchObedient` was
evaluated, and the exact arguments of every cache `Add` call in program
order.  The async A-probe goroutine of the unknown-domain branch is spawned
unconditionally; its call is recorded at its spawn position and its channel
value is read only where the source awaits it. -/

/-- The oracles the handler consults: the globals of domain_matcher.go plus
the two transports' `legallySpawnExchange` (which returns either a non-nil
response with a nil error or a nil response with a non-nil error). -/
structure DnsOracles : Type where
  domainCacheGet : String → Option domaincacheCell
  matchGFW : String → Bool
  matchObedient : String → Bool
  ipMatchCHN : GoIP → Bool
  localIP : GoIP
  proxyIP : GoIP
  abroad : Msg → Except String Msg
  obedient : Msg → Except String Msg

/-- A response pointer as the source sees it: nil exactly on error. -/
def respOf : Except String Msg → Option Msg
  | .ok r => some r
  | .error _ => none

/-- Everything observable about one handler run. -/
structure HandlerOut : Type where
  reply : Option Msg
  err : Option String
  evaluatedMatchObedient : Bool
  abroadCalls : List Msg
  obedientCalls : List Msg
  domainAdds : List (String × RR × transport)
  ipAdds : List (String × transport)
deriving DecidableEq, Repr

/-- Go `strings.HasSuffix`: `len(s) >= len(suffix)` and the trailing slice
equals the suffix (over the characters of the ASCII domain names in play). -/
def goHasSuffix (s suf : String) : Bool :=
  decide (suf.data.length ≤ s.data.length) &&
    decide (s.data.drop (s.data.length - suf.data.length) = suf.data)

/-- The Go slice expression `quesFqdn[:len(quesFqdn)-1]` stripping the final
character. -/
def dropLastChar (s : String) : String := String.mk s.data.dropLast

/-- The literal pseudo-zone suffix of dnsserve.go line 54. -/
def dhcpHostSuffix : String := ".DHCP\\ HOST."

/-- dnsserve.go `handleDnsRequest`, lines 50–175.  The question is the
request's first (Go would panic on an empty Question section; theorems
assume it non-empty). -/
def handleDnsRequest (g : DnsOracles) (req : Msg) : HandlerOut :=
  let quesFqdn := (req.question.headD ⟨"", 0, 0⟩).name
  if goHasSuffix quesFqdn dhcpHostSuffix then
    { reply := some (MsgNewReplyFromReq req), err := none,
      evaluatedMatchObedient := false, abroadCalls := [], obedientCalls := [],
      domainAdds := [], ipAdds := [] }
  else
    let domain := dropLastChar quesFqdn
    match g.domainCacheGet domain with
    | some item =>
      { reply := some (MsgNewReplyFromReq req [item.ans]), err := none,
        evaluatedMatchObedient := false, abroadCalls := [], obedientCalls := [],
        domainAdds := [], ipAdds := [] }
    | none =>
      if g.matchGFW domain then
        -- case matchGfw: ECS = PROXY_IP on the request itself, abroad race
        let req' := MsgSetECSWithAddr req g.proxyIP
        match g.abroad req' with
        | .error e =>
          { reply := none, err := some e, evaluatedMatchObedient := false,
            abroadCalls := [req'], obedientCalls := [], domainAdds := [], ipAdds := [] }
        | .ok resp =>
          match MsgExtractAnswer (some resp) with
          | some (ans, ip) =>
            { reply := some resp, err := none, evaluatedMatchObedient := false,
              abroadCalls := [req'], obedientCalls := [],
              domainAdds := [(domain, ans, transport.proxy)],
              ipAdds := [(ip.string, transport.proxy)] }
          | none =>
            { reply := some resp, err := none, evaluatedMatchObedient := false,
              abroadCalls := [req'], obedientCalls := [], domainAdds := [], ipAdds := [] }
      else if g.matchObedient domain then
        -- case matchObedient: obedient race, on success-with-answer cache as
        -- DIRECT, otherwise retry the abroad upstream with ECS = LOCAL_IP
        -- without caching
        match g.obedient req with
        | .ok resp =>
          match MsgExtractAnswer (some resp) with
          | some (ans, ip) =>
            { reply := some resp, err := none, evaluatedMatchObedient := true,
              abroadCalls := [], obedientCalls := [req],
              domainAdds := [(domain, ans, transport.direct)],
              ipAdds := [(ip.string, transport.direct)] }
          | none =>
            let req' := MsgSetECSWithAddr req g.localIP
            match g.abroad req' with
            | .error e =>
              { reply := none, err := some e, evaluatedMatchObedient := true,
                abroadCalls := [req'], obedientCalls := [req],
                domainAdds := [], ipAdds := [] }
            | .ok resp' =>
              { reply := some resp', err := none, evaluatedMatchObedient := true,
                abroadCalls := [req'], obedientCalls := [req],
                domainAdds := [], ipAdds := [] }
        | .error _ =>
          let req' := MsgSetECSWithAddr req g.localIP
          match g.abroad req' with
          | .error e =>
            { reply := none, err := some e, evaluatedMatchObedient := true,
              abroadCalls := [req'], obedientCalls := [req],
              domainAdds := [], ipAdds := [] }
          | .ok resp' =>
            { reply := some resp', err := none, evaluatedMatchObedient := true,
              abroadCalls := [req'], obedientCalls := [req],
              domainAdds := [], ipAdds := [] }
      else
        -- unknown domain: async A probe (ECS = PROXY_IP) plus synchronous
        -- decisive B probe (ECS = LOCAL_IP), both on the abroad upstream
        let reqA := MsgSetECSWithAddr req g.proxyIP
        let chanA := respOf (g.abroad reqA)
        let reqB := MsgSetECSWithAddr req g.localIP
        let resB := g.abroad reqB
        match resB with
        | .ok respB =>
          match MsgExtractAnswer (some respB) with
          | some (ansB, ipB) =>
            if respB.rcode = dnsRcodeSuccess then
              -- B succeeded
              match ipB.to4 with
              | some i4 =>
                if g.ipMatchCHN (GoIP.bytes i4) then
                  -- domestic IPv4: DIRECT, re-query obedient to improve quality
                  match g.obedient req with
                  | .ok respO =>
                    match MsgExtractAnswer (some respO) with
                    | some (ansO, ipO) =>
                      { reply := some respO, err := none, evaluatedMatchObedient := true,
                        abroadCalls := [reqA, reqB], obedientCalls := [req],
                        domainAdds := [(domain, ansO, transport.direct)],
                        ipAdds := [(ipO.string, transport.direct)] }
                    | none =>
                      { reply := some respB, err := none, evaluatedMatchObedient := true,
                        abroadCalls := [reqA, reqB], obedientCalls := [req],
                        domainAdds := [(domain, ansB, transport.direct)],
                        ipAdds := [(ipB.string, transport.direct)] }
                  | .error _ =>
                    { reply := some respB, err := none, evaluatedMatchObedient := true,
                      abroadCalls := [reqA, reqB], obedientCalls := [req],
                      domainAdds := [(domain, ansB, transport.direct)],
                      ipAdds := [(ipB.string, transport.direct)] }
                else
                  -- abroad IPv4: PROXY, await the A probe
                  unknownProxyJoin domain chanA respB ansB ipB reqA reqB req
              | none =>
                -- IPv6: PROXY, await the A probe
                unknownProxyJoin domain chanA respB ansB ipB reqA reqB req
            else
              unknownObedientFallback g domain reqA reqB req
          | none => unknownObedientFallback g domain reqA reqB req
        | .error _ => unknownObedientFallback g domain reqA reqB req
where
  /-- Lines 140–154: transport PROXY; if the awaited A probe produced an
  answer, its response replaces B's; cache and reply. -/
  unknownProxyJoin (domain : String) (chanA : Option Msg) (respB : Msg)
      (ansB : RR) (ipB : GoIP) (reqA reqB _req : Msg) : HandlerOut :=
    match MsgExtractAnswer chanA with
    | some (ansA, ipA) =>
      { reply := chanA, err := none, evaluatedMatchObedient := true,
        abroadCalls := [reqA, reqB], obedientCalls := [],
        domainAdds := [(domain, ansA, transport.proxy)],
        ipAdds := [(ipA.string, transport.proxy)] }
    | none =>
      { reply := some respB, err := none, evaluatedMatchObedient := true,
        abroadCalls := [reqA, reqB], obedientCalls := [],
        domainAdds := [(domain, ansB, transport.proxy)],
        ipAdds := [(ipB.string, transport.proxy)] }
  /-- Lines 155–174: B failed; try the obedient upstream once, classify its
  answer by the domestic-IPv4 predicate (here applied to the full IP), cache
  when an answer exists, propagate the error when the obedient race also
  fails. -/
  unknownObedientFallback (g : DnsOracles) (domain : String)
      (reqA reqB req : Msg) : HandlerOut :=
    match g.obedient req with
    | .error e =>
      { reply := none, err := some e, evaluatedMatchObedient := true,
        abroadCalls := [reqA, reqB], obedientCalls := [req],
        domainAdds := [], ipAdds := [] }
    | .ok respO =>
      match MsgExtractAnswer (some respO) with
      | some (ansO, ipO) =>
        let trans := if (ipO.to4).isSome ∧ g.ipMatchCHN ipO then
            transport.direct else transport.proxy
        { reply := some respO, err := none, evaluatedMatchObedient := true,
          abroadCalls := [reqA, reqB], obedientCalls := [req],
          domainAdds := [(domain, ansO, trans)],
          ipAdds := [(ipO.string, trans)] }
      | none =>
        { reply := some respO, err := none, evaluatedMatchObedient := true,
          abroadCalls := [reqA, reqB], obedientCalls := [req],
          domainAdds := [], ipAdds := [] }

/-! # Claim theorems -/

/-- C1: the claim says the gate predicate returns true only if ALL core
dependencies are non-nil, the PROXY_IP sentinel included.  The code checks
LOCAL_IP twice (lines 51–52 of the validator) and never checks PROXY_IP:
with every dependency initialized except a nil `_DNS_SUBNET_PROXY_IP`, the
validator still returns true and both `ServeDNS` and `ServeProxy` start.
This contradicts the validator's own stated purpose (deciding whether the
globals are initialized) — a copy-paste slip in the source. -/
theorem C1_gate_passes_with_nil_proxy_ip :
    let g : GlobalsState :=
      { ipcacheInner := some (), domaincacheInner := some (),
        domainMatcher := some (), ipMatchChineseMainland := some (),
        dnsSubnetLocalIP := GoIP.bytes [114, 114, 114, 114],
        dnsSubnetProxyIP := GoIP.nilIP,
        dnsTransportObedient := some (), dnsTransportAbroad := some () }
    g.dnsSubnetProxyIP = GoIP.nilIP ∧ globalsValidate g = true ∧
      serveDNSStarts g = true ∧ serveProxyStarts g = true := by
  decide

/-- C2 counterexample: `Add` on a key holding an unexpired entry does NOT
overwrite.  At time 50 the IP cache holds 1.2.3.4 → DIRECT until 100;
`Add(1.2.3.4, PROXY)` leaves the cache unchanged (go-cache `Add` refuses
existing unexpired keys and the repository discards its error), and the
immediately following `Get` returns DIRECT, not the new value PROXY. -/
theorem C2_add_does_not_overwrite :
    let c : ipcache := { inner := [("1.2.3.4", ⟨transport.direct, 100⟩)], defaultTTL := 300 }
    let c' := c.add 50 "1.2.3.4" transport.proxy
    c' = c ∧ c'.get 50 "1.2.3.4" = some transport.direct ∧
      c'.get 50 "1.2.3.4" ≠ some transport.proxy := by
  decide

/-- C2 amended: for both caches, `Add(k, v)` on a key holding an unexpired
entry is a no-op — the cache is unchanged (no overwrite, no TTL reset) and a
following `Get(k)` still returns the OLD value with a hit.  (go-cache `Add`
only stores when the key is absent or expired; its error return is
discarded by both wrappers.) -/
theorem C2_add_keeps_old_entry
    (c : ipcache) (d : domaincache) (now : Nat) (k kd : String)
    (v w : transport) (cell : domaincacheCell) (ans : RR)
    (hk : c.get now k = some v) (hd : d.get now kd = some cell) :
    (c.add now k w = c ∧ (c.add now k w).get now k = some v) ∧
    ((d.add now kd ans w).1 = d ∧ (d.add now kd ans w).1.get now kd = some cell) := by
  unfold ipcache.add ipcache.get domaincache.add domaincache.get goCacheAdd at *
  constructor
  · by_cases hk0 : k = ""
    · subst hk0; simp [hk]
    · simp [hk0, hk]
  · by_cases hd0 : kd = ""
    · subst hd0; simp [hd]
    · simp [hd0, hd]

/-- C2 witness for the amended theorem: a concrete pair of caches, each
holding an unexpired entry, on which the no-op behaviour evaluates. -/
theorem C2_add_keeps_old_entry_witness :
    let c : ipcache := { inner := [("8.8.8.8", ⟨transport.proxy, 70⟩)], defaultTTL := 300 }
    let cell : domaincacheCell := ⟨RR.a ⟨"d.example.", 1, 1, 60, 4⟩ (GoIP.bytes [1, 2, 3, 4]), transport.direct⟩
    let d : domaincache := { inner := [("d.example", ⟨cell, 70⟩)], defaultTTL := 300 }
    (c.add 60 "8.8.8.8" transport.direct = c ∧
      (c.add 60 "8.8.8.8" transport.direct).get 60 "8.8.8.8" = some transport.proxy) ∧
    ((d.add 60 "d.example" (RR.a ⟨"d.example.", 1, 1, 60, 4⟩ (GoIP.bytes [9, 9, 9, 9])) transport.proxy).1 = d ∧
      (d.add 60 "d.example" (RR.a ⟨"d.example.", 1, 1, 60, 4⟩ (GoIP.bytes [9, 9, 9, 9])) transport.proxy).1.get 60 "d.example" = some cell) :=
  C2_add_keeps_old_entry _ _ 60 "8.8.8.8" "d.example" transport.proxy transport.direct
    _ _ (by decide) (by decide)

/-- C9: `setRedirect` on a SOCKS5 request rewrites the target host to the
textual form of the given IP and tags the address as IPv4 in BOTH branches
of its `To4` test — also for IPv6 addresses with no IPv4 form (the bug the
spec acknowledges). -/
theorem C9_setRedirect_always_ipv4_tag (r : socks5Request) (ip : GoIP) :
    (r.setRedirect ip).addr.type_ = AddrIPv4 ∧
    (r.setRedirect ip).addr.host = ip.string ∧
    (r.setRedirect ip).addr.port = r.addr.port := by
  unfold socks5Request.setRedirect
  constructor
  · by_cases h : (ip.to4).isSome <;> simp [h]
  · constructor <;> rfl

/-- C10: in the DoH-to-wire translation the Response flag is the test
`Status == 0` while the RCODE is Status itself: a non-zero Status yields a
message carrying that Status as RCODE yet not marked as a response; Status 0
sets the Response flag. -/
theorem C10_doh_response_flag_is_status_eq_zero (req : Msg) (doh : GoogleRespRepr) :
    (MsgExchangeOverGoogleDOH req doh).rcode = doh.status ∧
    ((MsgExchangeOverGoogleDOH req doh).response = true ↔ doh.status = 0) := by
  unfold MsgExchangeOverGoogleDOH
  rcases h : msgDohECSAddr req with _ | bs <;>
    simp [MsgSetECSWithAddr]

/-- C5: the claim (and spec property 6, "if all three probes fail, Race
returns a non-nil error") requires the all-fail race to return the last
failure's error.  The separate `atomic.LoadInt32` and `atomic.AddInt32` of
libdns_utils.go lines 235–239 are a lost-update race: in the valid
interleaving in which all three failing goroutines execute their loads
before any increment lands (schedule 0,1,2,0,1,2), every goroutine reads
`failedTimes ≤ 1`, all three take the increment branch, nothing is ever
sent on `resp`, and `legallySpawnExchange` blocks forever — even though
every goroutine has run to completion (all program counters final).  The
serialized schedule 0,0,1,1,2,2 shows the behaviour the code intends and
the claim states: the third failure reads 2 and returns its error. -/
theorem C5_all_fail_race_can_block :
    let outcomes : List ExchOutcome :=
      [ExchOutcome.fail "e1", ExchOutcome.fail "e2", ExchOutcome.fail "e3"]
    ((raceRun outcomes [0, 1, 2, 0, 1, 2]).pcs = [2, 2, 2] ∧
      legallySpawnExchange outcomes [0, 1, 2, 0, 1, 2] = none) ∧
    ((raceRun outcomes [0, 0, 1, 1, 2, 2]).pcs = [2, 2, 2] ∧
      legallySpawnExchange outcomes [0, 0, 1, 1, 2, 2] =
        some (Except.error "e3")) := by
  decide

/-- C6 counterexample: a request with no OPT record (hence no EDNS0_SUBNET
option) still produces a DoH GET carrying an `edns_client_subnet`
parameter — the textual form of the nil IP — because the translation always
passes `ecs.String()` to `google.Query`, which adds the parameter whenever
the argument is non-empty. -/
theorem C6_ecs_param_sent_without_ecs_option :
    let req : Msg := { question := [⟨"example.com.", 1, 1⟩] }
    req.isEdns0 = none ∧
      (msgExchangeDohParams req).ednsClientSubnet = some "<nil>" := by
  decide

/-- C6 amended: the DoH GET always carries `name`, `type` AND an
`edns_client_subnet` parameter: the parameter is the `String()` form of the
address extracted from the request's OPT (the LAST subnet option wins), and
for a request with no OPT record it is the literal nil-IP marker string
rather than being omitted. -/
theorem C6_doh_get_params (req : Msg) (q : Question) (qs : List Question)
    (hq : req.question = q :: qs) :
    (msgExchangeDohParams req).name = q.name ∧
    (msgExchangeDohParams req).qtype = q.qtype ∧
    ((msgExchangeDohParams req).ednsClientSubnet).isSome = true ∧
    (req.isEdns0 = none →
      (msgExchangeDohParams req).ednsClientSubnet = some "<nil>") := by
  refine ⟨?_, ?_, ?_, ?_⟩
  · simp [msgExchangeDohParams, googleQueryParams, hq]
  · simp [msgExchangeDohParams, googleQueryParams, hq]
  · simp [msgExchangeDohParams, googleQueryParams]
  · intro h
    simp [msgExchangeDohParams, googleQueryParams, msgDohECSAddr, h, GoIP.string]

/-- C6 witness for the amended theorem: evaluated on a concrete ECS-less
request. -/
theorem C6_doh_get_params_witness :
    (msgExchangeDohParams { question := [⟨"example.com.", 1, 1⟩] }).name = "example.com." ∧
    (msgExchangeDohParams { question := [⟨"example.com.", 1, 1⟩] }).qtype = 1 ∧
    ((msgExchangeDohParams { question := [⟨"example.com.", 1, 1⟩] }).ednsClientSubnet).isSome = true ∧
    (Msg.isEdns0 { question := [⟨"example.com.", 1, 1⟩] } = none →
      (msgExchangeDohParams { question := [⟨"example.com.", 1, 1⟩] }).ednsClientSubnet = some "<nil>") :=
  C6_doh_get_params { question := [⟨"example.com.", 1, 1⟩] } ⟨"example.com.", 1, 1⟩ [] rfl

/-! ### Helper lemmas for the ECS idempotence claim -/

theorem updateFirstWhere_any (p : α → Bool) (f : α → α)
    (h : ∀ x, p x = true → p (f x) = true) :
    ∀ l : List α, (updateFirstWhere p f l).any p = l.any p
  | [] => rfl
  | x :: xs => by
    by_cases hx : p x = true
    · simp [updateFirstWhere, hx, h x hx]
    · have hx' : p x = false := by simpa using hx
      simp [updateFirstWhere, hx', updateFirstWhere_any p f h xs]

theorem updateFirstWhere_idem (p : α → Bool) (f : α → α)
    (hpf : ∀ x, p x = true → p (f x) = true)
    (hff : ∀ x, p x = true → f (f x) = f x) :
    ∀ l : List α, updateFirstWhere p f (updateFirstWhere p f l) = updateFirstWhere p f l
  | [] => rfl
  | x :: xs => by
    by_cases hx : p x = true
    · simp [updateFirstWhere, hx, hpf x hx, hff x hx]
    · have hx' : p x = false := by simpa using hx
      simp [updateFirstWhere, hx', updateFirstWhere_idem p f hpf hff xs]

theorem updateFirstWhere_append_none (p : α → Bool) (f : α → α) :
    ∀ l l' : List α, l.any p = false →
      updateFirstWhere p f (l ++ l') = l ++ updateFirstWhere p f l'
  | [], _, _ => rfl
  | x :: xs, l', h => by
    simp only [List.any_cons, Bool.or_eq_false_iff] at h
    simp [updateFirstWhere, h.1, updateFirstWhere_append_none p f xs l' h.2]

theorem isSubnet_newECSOption (a : GoIP) : (newECSOption a).isSubnet = true := by
  unfold newECSOption
  split <;> rfl

theorem setECSInOptions_idem (a : GoIP) (opts : List EDNS0Option) :
    setECSInOptions a (setECSInOptions a opts) = setECSInOptions a opts := by
  by_cases h : opts.any EDNS0Option.isSubnet = true
  · unfold setECSInOptions
    rw [if_pos h]
    have hany : (updateFirstWhere EDNS0Option.isSubnet (fun _ => newECSOption a) opts).any
        EDNS0Option.isSubnet = true := by
      rw [updateFirstWhere_any _ _ (fun x _ => isSubnet_newECSOption a)]
      exact h
    rw [if_pos hany]
    exact updateFirstWhere_idem _ _ (fun x _ => isSubnet_newECSOption a) (fun x _ => rfl) opts
  · have h' : opts.any EDNS0Option.isSubnet = false := by simpa using h
    have heq : setECSInOptions a opts = opts ++ [newECSOption a] := by
      unfold setECSInOptions
      rw [if_neg h]
    rw [heq]
    have hany : (opts ++ [newECSOption a]).any EDNS0Option.isSubnet = true := by
      simp [List.any_append, isSubnet_newECSOption]
    unfold setECSInOptions
    rw [if_pos hany, updateFirstWhere_append_none _ _ _ _ h']
    simp [updateFirstWhere, isSubnet_newECSOption]

theorem setECSInRR_isOPT (a : GoIP) (r : RR) (h : r.isOPT = true) :
    (setECSInRR a r).isOPT = true := by
  cases r <;> simpa [setECSInRR, RR.isOPT] using h

theorem setECSInRR_idem (a : GoIP) (r : RR) :
    setECSInRR a (setECSInRR a r) = setECSInRR a r := by
  cases r <;> simp [setECSInRR, setECSInOptions_idem]

theorem msgSetECS_extra_any (m : Msg) (bs : List Nat) :
    ((MsgSetECSWithAddr m (GoIP.bytes bs)).extra).any RR.isOPT = true := by
  have hnew : (RR.opt ⟨".", dnsTypeOPT, 0, 0, 0⟩ []).isOPT = true := by decide
  simp only [MsgSetECSWithAddr]
  rw [updateFirstWhere_any _ _ (setECSInRR_isOPT (GoIP.bytes bs))]
  by_cases h : m.extra.any RR.isOPT = true
  · rw [if_pos h]
    exact h
  · have h' : m.extra.any RR.isOPT = false := by simpa using h
    rw [if_neg (by simp [h'])]
    simp [List.any_append, hnew]

/-- C8 counterexample: on a message whose OPT record already holds TWO
`EDNS0_SUBNET` options, the set-ECS operation rewrites only the first; the
second survives with its old address, so the resulting message does NOT hold
exactly one `EDNS0_SUBNET` option as the claim states for every message. -/
theorem C8_second_subnet_option_survives :
    let m : Msg := { extra := [RR.opt ⟨".", 41, 0, 0, 0⟩
      [EDNS0Option.subnet 8 1 32 0 (GoIP.bytes [1, 1, 1, 1]),
       EDNS0Option.subnet 8 1 32 0 (GoIP.bytes [2, 2, 2, 2])]] }
    let m' := MsgSetECSWithAddr m (GoIP.bytes [9, 9, 9, 9])
    m'.extra = [RR.opt ⟨".", 41, 0, 0, 0⟩
      [EDNS0Option.subnet 8 1 32 0 (GoIP.bytes [9, 9, 9, 9]),
       EDNS0Option.subnet 8 1 32 0 (GoIP.bytes [2, 2, 2, 2])]] ∧
    (m'.extra.map (fun r => match r with
      | RR.opt _ opts => (opts.filter EDNS0Option.isSubnet).length
      | _ => 0)).sum = 2 := by
  decide

/-- C8 amended: set-ECS is idempotent for EVERY message and address —
applying it twice with the same address yields the same message as applying
it once.  The claimed shape of the result holds for messages that do not
already carry an OPT record: then the result has exactly one OPT record
appended, holding exactly one `EDNS0_SUBNET` option with `Code=EDNS0SUBNET`,
`FAMILY=1, SOURCE_PREFIX=32` for an IPv4 address and `FAMILY=2,
SOURCE_PREFIX=128` otherwise, `SCOPE=0` and the given address.  (Messages
already holding several OPT records or several subnet options keep the
extras — only the first of each is rewritten.) -/
theorem C8_setECS_idempotent (m : Msg) (a : GoIP) :
    MsgSetECSWithAddr (MsgSetECSWithAddr m a) a = MsgSetECSWithAddr m a ∧
    (m.extra.any RR.isOPT = false → a ≠ GoIP.nilIP →
      (MsgSetECSWithAddr m a).extra = m.extra ++
        [RR.opt ⟨".", dnsTypeOPT, 0, 0, 0⟩
          [EDNS0Option.subnet dnsEDNS0SUBNET (if (a.to4).isSome then 1 else 2)
            (if (a.to4).isSome then 32 else 128) 0 a]]) := by
  constructor
  · cases a with
    | nilIP => rfl
    | bytes bs =>
      have hany := msgSetECS_extra_any m bs
      have hstep : ∀ m' : Msg, m'.extra.any RR.isOPT = true →
          MsgSetECSWithAddr m' (GoIP.bytes bs) =
            { m' with extra :=
                updateFirstWhere RR.isOPT (setECSInRR (GoIP.bytes bs)) m'.extra } := by
        intro m' h
        simp only [MsgSetECSWithAddr]
        rw [if_pos h]
      rw [hstep _ hany]
      have hextra : updateFirstWhere RR.isOPT (setECSInRR (GoIP.bytes bs))
          (MsgSetECSWithAddr m (GoIP.bytes bs)).extra =
          (MsgSetECSWithAddr m (GoIP.bytes bs)).extra := by
        simp only [MsgSetECSWithAddr]
        exact updateFirstWhere_idem _ _ (setECSInRR_isOPT (GoIP.bytes bs))
          (fun x _ => setECSInRR_idem (GoIP.bytes bs) x) _
      rw [hextra]
  · intro hno hnil
    cases a with
    | nilIP => exact absurd rfl hnil
    | bytes bs =>
      simp only [MsgSetECSWithAddr]
      rw [if_neg (by simp [hno])]
      rw [updateFirstWhere_append_none _ _ _ _ hno]
      simp only [updateFirstWhere, setECSInRR, setECSInOptions, List.any_nil,
        Bool.false_eq_true, if_false, List.nil_append]
      have hopt : (RR.opt ⟨".", dnsTypeOPT, 0, 0, 0⟩ ([] : List EDNS0Option)).isOPT = true := by
        decide
      rw [if_pos hopt]
      by_cases h4 : ((GoIP.bytes bs).to4).isSome = true <;>
        simp [newECSOption, setECSInOptions, h4]

/-- C8 witness for the amended theorem: idempotence and the exact resulting
OPT record, evaluated on the empty message and the IPv4 address 1.2.3.4. -/
theorem C8_setECS_idempotent_witness :
    MsgSetECSWithAddr (MsgSetECSWithAddr {} (GoIP.bytes [1, 2, 3, 4])) (GoIP.bytes [1, 2, 3, 4]) =
      MsgSetECSWithAddr {} (GoIP.bytes [1, 2, 3, 4]) ∧
    (MsgSetECSWithAddr ({} : Msg) (GoIP.bytes [1, 2, 3, 4])).extra =
      [RR.opt ⟨".", dnsTypeOPT, 0, 0, 0⟩
        [EDNS0Option.subnet dnsEDNS0SUBNET 1 32 0 (GoIP.bytes [1, 2, 3, 4])]] :=
  ⟨(C8_setECS_idempotent {} (GoIP.bytes [1, 2, 3, 4])).1, by
    have h := (C8_setECS_idempotent ({} : Msg) (GoIP.bytes [1, 2, 3, 4])).2 (by decide)
      (by decide)
    simpa using h⟩

/-- The error pointer of an exchange result: nil exactly on success. -/
def errOf : Except String Msg → Option String
  | .ok _ => none
  | .error e => some e

/-- C4: for a cache-missing domain on the GFW blacklist, the handler sets
ECS = PROXY_IP on the request and races exactly that on the abroad upstream,
never calling the obedient upstream and never evaluating `MatchObedient`;
when the race succeeds and the response has an extractable answer, the
domain cache receives (domain → answer, PROXY), the IP cache receives
(answer-IP text → PROXY), and the abroad response is the reply. -/
theorem C4_gfw_precedence (g : DnsOracles) (req : Msg) (q : Question) (qs : List Question)
    (hq : req.question = q :: qs)
    (hdhcp : goHasSuffix q.name dhcpHostSuffix = false)
    (hc : g.domainCacheGet (dropLastChar q.name) = none)
    (hg : g.matchGFW (dropLastChar q.name) = true) :
    (handleDnsRequest g req).evaluatedMatchObedient = false ∧
    (handleDnsRequest g req).obedientCalls = [] ∧
    (handleDnsRequest g req).abroadCalls = [MsgSetECSWithAddr req g.proxyIP] ∧
    (∀ resp ans ip, g.abroad (MsgSetECSWithAddr req g.proxyIP) = Except.ok resp →
      MsgExtractAnswer (some resp) = some (ans, ip) →
      (handleDnsRequest g req).reply = some resp ∧
      (handleDnsRequest g req).domainAdds = [(dropLastChar q.name, ans, transport.proxy)] ∧
      (handleDnsRequest g req).ipAdds = [(ip.string, transport.proxy)]) := by
  rcases habr : g.abroad (MsgSetECSWithAddr req g.proxyIP) with e | resp
  · refine ⟨?_, ?_, ?_, ?_⟩ <;>
      simp [handleDnsRequest, hq, hdhcp, hc, hg, habr]
  · rcases hext : MsgExtractAnswer (some resp) with _ | ⟨ans, ip⟩
    · refine ⟨?_, ?_, ?_, ?_⟩
      · simp [handleDnsRequest, hq, hdhcp, hc, hg, habr, hext]
      · simp [handleDnsRequest, hq, hdhcp, hc, hg, habr, hext]
      · simp [handleDnsRequest, hq, hdhcp, hc, hg, habr, hext]
      · intro resp' ans' ip' h1 h2
        injection h1 with h1
        subst h1
        rw [hext] at h2
        exact Option.noConfusion h2
    · refine ⟨?_, ?_, ?_, ?_⟩
      · simp [handleDnsRequest, hq, hdhcp, hc, hg, habr, hext]
      · simp [handleDnsRequest, hq, hdhcp, hc, hg, habr, hext]
      · simp [handleDnsRequest, hq, hdhcp, hc, hg, habr, hext]
      · intro resp' ans' ip' h1 h2
        injection h1 with h1
        subst h1
        rw [hext] at h2
        injection h2 with h2
        cases h2
        simp [handleDnsRequest, hq, hdhcp, hc, hg, habr, hext]

/-- C3: in the unknown-domain path, when the synchronous abroad probe with
ECS = LOCAL_IP returns NOERROR with an extractable domestic-IPv4 address,
the transport is DIRECT: the obedient upstream is re-queried with the
original request, its successful extractable answer replaces the probe's
answer in the reply, the domain cache receives (domain → obedient answer,
DIRECT) and the IP cache (obedient answer-IP text → DIRECT). -/
theorem C3_unknown_domestic_improved (g : DnsOracles) (req : Msg) (q : Question)
    (qs : List Question) (respB respO : Msg) (ansB ansO : RR) (ipB ipO : GoIP)
    (i4 : List Nat)
    (hq : req.question = q :: qs)
    (hdhcp : goHasSuffix q.name dhcpHostSuffix = false)
    (hc : g.domainCacheGet (dropLastChar q.name) = none)
    (hg : g.matchGFW (dropLastChar q.name) = false)
    (ho : g.matchObedient (dropLastChar q.name) = false)
    (hB : g.abroad (MsgSetECSWithAddr req g.localIP) = Except.ok respB)
    (hEB : MsgExtractAnswer (some respB) = some (ansB, ipB))
    (hrc : respB.rcode = dnsRcodeSuccess)
    (h4 : ipB.to4 = some i4)
    (hCN : g.ipMatchCHN (GoIP.bytes i4) = true)
    (hO : g.obedient req = Except.ok respO)
    (hEO : MsgExtractAnswer (some respO) = some (ansO, ipO)) :
    handleDnsRequest g req =
      { reply := some respO, err := none, evaluatedMatchObedient := true,
        abroadCalls := [MsgSetECSWithAddr req g.proxyIP, MsgSetECSWithAddr req g.localIP],
        obedientCalls := [req],
        domainAdds := [(dropLastChar q.name, ansO, transport.direct)],
        ipAdds := [(ipO.string, transport.direct)] } := by
  simp [handleDnsRequest, hq, hdhcp, hc, hg, ho, hB, hEB, hrc, h4, hCN, hO, hEO]

/-- C7: for a cache-missing domain on the obedient whitelist, when the
obedient race fails or returns no extractable answer, the handler retries
once on the abroad upstream with ECS = LOCAL_IP, replies with that fallback
result (propagating its error on failure), and neither cache receives any
Add in this fallback path. -/
theorem C7_obedient_fallback_no_cache (g : DnsOracles) (req : Msg) (q : Question)
    (qs : List Question)
    (hq : req.question = q :: qs)
    (hdhcp : goHasSuffix q.name dhcpHostSuffix = false)
    (hc : g.domainCacheGet (dropLastChar q.name) = none)
    (hg : g.matchGFW (dropLastChar q.name) = false)
    (ho : g.matchObedient (dropLastChar q.name) = true)
    (hfail : MsgExtractAnswer (respOf (g.obedient req)) = none) :
    (handleDnsRequest g req).domainAdds = [] ∧
    (handleDnsRequest g req).ipAdds = [] ∧
    (handleDnsRequest g req).obedientCalls = [req] ∧
    (handleDnsRequest g req).abroadCalls = [MsgSetECSWithAddr req g.localIP] ∧
    (handleDnsRequest g req).reply = respOf (g.abroad (MsgSetECSWithAddr req g.localIP)) ∧
    (handleDnsRequest g req).err = errOf (g.abroad (MsgSetECSWithAddr req g.localIP)) := by
  rcases hob : g.obedient req with e | r
  · rcases habr : g.abroad (MsgSetECSWithAddr req g.localIP) with e' | r' <;>
      refine ⟨?_, ?_, ?_, ?_, ?_, ?_⟩ <;>
        simp [handleDnsRequest, hq, hdhcp, hc, hg, ho, hob, habr, respOf, errOf]
  · rw [hob] at hfail
    simp only [respOf] at hfail
    rcases habr : g.abroad (MsgSetECSWithAddr req g.localIP) with e' | r' <;>
      refine ⟨?_, ?_, ?_, ?_, ?_, ?_⟩ <;>
        simp [handleDnsRequest, hq, hdhcp, hc, hg, ho, hob, habr, hfail, respOf, errOf]

/-! ### Concrete fixtures for the handler witnesses -/

/-- A GFW-listed query (scenario S1 of the spec). -/
def req4 : Msg := { question := [⟨"blocked.example.net.", 1, 1⟩] }

def ans4 : RR := RR.a ⟨"blocked.example.net.", 1, 1, 60, 4⟩ (GoIP.bytes [93, 184, 216, 34])

def resp4 : Msg := { answer := [ans4] }

def g4 : DnsOracles :=
  { domainCacheGet := fun _ => none, matchGFW := fun _ => true,
    matchObedient := fun _ => false, ipMatchCHN := fun _ => false,
    localIP := GoIP.bytes [114, 114, 114, 114], proxyIP := GoIP.bytes [8, 8, 8, 8],
    abroad := fun _ => Except.ok resp4, obedient := fun _ => Except.error "unused" }

/-- C4 witness: scenario S1 — GFW domain, abroad answer 93.184.216.34,
cached as PROXY under both keys, obedient matcher never evaluated. -/
theorem C4_gfw_precedence_witness :
    (handleDnsRequest g4 req4).evaluatedMatchObedient = false ∧
    (handleDnsRequest g4 req4).obedientCalls = [] ∧
    (handleDnsRequest g4 req4).abroadCalls = [MsgSetECSWithAddr req4 (GoIP.bytes [8, 8, 8, 8])] ∧
    (handleDnsRequest g4 req4).reply = some resp4 ∧
    (handleDnsRequest g4 req4).domainAdds = [("blocked.example.net", ans4, transport.proxy)] ∧
    (handleDnsRequest g4 req4).ipAdds = [("93.184.216.34", transport.proxy)] := by
  obtain ⟨h1, h2, h3, h4⟩ := C4_gfw_precedence g4 req4 ⟨"blocked.example.net.", 1, 1⟩ []
    rfl (by decide) rfl rfl
  obtain ⟨h5, h6, h7⟩ := h4 resp4 ans4 (GoIP.bytes [93, 184, 216, 34]) rfl (by decide)
  refine ⟨h1, h2, h3, h5, ?_, ?_⟩
  · rw [h6]; decide
  · rw [h7]; decide

/-- An unknown-domain query (scenario S3 of the spec). -/
def req3 : Msg := { question := [⟨"mixed.test.", 1, 1⟩] }

def ansB3 : RR := RR.a ⟨"mixed.test.", 1, 1, 60, 4⟩ (GoIP.bytes [1, 2, 3, 4])

def respB3 : Msg := { answer := [ansB3] }

def ansO3 : RR := RR.a ⟨"mixed.test.", 1, 1, 60, 4⟩ (GoIP.bytes [1, 2, 3, 5])

def respO3 : Msg := { answer := [ansO3] }

def g3 : DnsOracles :=
  { domainCacheGet := fun _ => none, matchGFW := fun _ => false,
    matchObedient := fun _ => false,
    ipMatchCHN := fun ip => ip == GoIP.bytes [1, 2, 3, 4],
    localIP := GoIP.bytes [114, 114, 114, 114], proxyIP := GoIP.bytes [8, 8, 8, 8],
    abroad := fun _ => Except.ok respB3, obedient := fun _ => Except.ok respO3 }

/-- C3 witness: scenario S3 — the LOCAL_IP probe returns domestic 1.2.3.4,
the obedient re-query returns 1.2.3.5 which replaces the probe's answer;
both caches receive DIRECT entries keyed on the obedient result. -/
theorem C3_unknown_domestic_improved_witness :
    handleDnsRequest g3 req3 =
      { reply := some respO3, err := none, evaluatedMatchObedient := true,
        abroadCalls := [MsgSetECSWithAddr req3 (GoIP.bytes [8, 8, 8, 8]),
                        MsgSetECSWithAddr req3 (GoIP.bytes [114, 114, 114, 114])],
        obedientCalls := [req3],
        domainAdds := [("mixed.test", ansO3, transport.direct)],
        ipAdds := [("1.2.3.5", transport.direct)] } := by
  have h := C3_unknown_domestic_improved g3 req3 ⟨"mixed.test.", 1, 1⟩ [] respB3 respO3
    ansB3 ansO3 (GoIP.bytes [1, 2, 3, 4]) (GoIP.bytes [1, 2, 3, 5]) [1, 2, 3, 4]
    rfl (by decide) rfl rfl rfl rfl (by decide) rfl (by decide) (by decide) rfl (by decide)
  rw [h]
  decide

/-- An obedient-listed query whose obedient race yields no answer. -/
def req7 : Msg := { question := [⟨"www.cn.example.", 1, 1⟩] }

def respA7 : Msg := { answer := [RR.a ⟨"www.cn.example.", 1, 1, 60, 4⟩ (GoIP.bytes [1, 2, 3, 4])] }

def g7 : DnsOracles :=
  { domainCacheGet := fun _ => none, matchGFW := fun _ => false,
    matchObedient := fun _ => true, ipMatchCHN := fun _ => false,
    localIP := GoIP.bytes [114, 114, 114, 114], proxyIP := GoIP.bytes [8, 8, 8, 8],
    abroad := fun _ => Except.ok respA7, obedient := fun _ => Except.ok {} }

/-- C7 witness: the obedient race returns an answerless response, the
handler falls back to the abroad upstream with ECS = LOCAL_IP, replies with
the fallback response, and performs no cache Add. -/
theorem C7_obedient_fallback_no_cache_witness :
    (handleDnsRequest g7 req7).domainAdds = [] ∧
    (handleDnsRequest g7 req7).ipAdds = [] ∧
    (handleDnsRequest g7 req7).obedientCalls = [req7] ∧
    (handleDnsRequest g7 req7).abroadCalls =
      [MsgSetECSWithAddr req7 (GoIP.bytes [114, 114, 114, 114])] ∧
    (handleDnsRequest g7 req7).reply = some respA7 ∧
    (handleDnsRequest g7 req7).err = none := by
  obtain ⟨h1, h2, h3, h4, h5, h6⟩ := C7_obedient_fallback_no_cache g7 req7
    ⟨"www.cn.example.", 1, 1⟩ [] rfl (by decide) rfl rfl rfl (by decide)
  exact ⟨h1, h2, h3, h4, h5, h6⟩
